import Mathlib

/-!
Verification of the blokr interaction-blocking library.

The development shallowly embeds the repository's core:

* `lock.ts` — the Interceptor: a registry (JS `Set`) of filter predicates
  and a capture-phase listener that suppresses the first-matching event.
* the handle variant of `Blokr` — per-target handles with
  `lock(options)` / `unlock()` / `isLocked()`, an auto-expiry timer and a
  `WeakMap` cache of one handle per target.
* the counting singleton variant of `Blokr` — a reference-counted
  `lock()` / `unlock(abort)` pair over a boolean `Lock`.

DOM elements are modelled by their path from the document root, so DOM
containment (`Element.prototype.contains`, true on the element itself and
every descendant) is the prefix relation on paths.  JS function identity
(what `Set.add` / `Set.delete` compare) is modelled by tagging each
closure with the numeric id it was allocated with.
-/

/-- A DOM element, identified by its path of child indices from the root.
Two elements are the same node iff their paths are equal. -/
abbrev Element := List Nat

/-- Model of `Element.prototype.contains`: `t.contains e` is true iff `e` is `t`
itself or a descendant of `t`; on paths this is the prefix test. -/
def Element.containsE : Element → Element → Bool
  | [], _ => true
  | _ :: _, [] => false
  | a :: as, b :: bs => a == b && Element.containsE as bs

/-- An event target: `Event.target` is an element node or some other node
(text, document, ...). -/
inductive Node where
  | element : Element → Node
  | other : Nat → Node
deriving DecidableEq, Repr

/-- The observable effect of the three suppression operations on an event:
`stopImmediatePropagation`, `stopPropagation`, `preventDefault`. -/
structure Event where
  target : Node
  stoppedImmediate : Bool
  stopped : Bool
  defaultPrevented : Bool
deriving DecidableEq, Repr

/-- A `Filter` closure from `lock.ts`: identity-significant (the JS `Set`
stores function references), so we carry the allocation id alongside the
predicate the closure computes. -/
structure BFilter where
  fid : Nat
  pred : Element → Bool

/-- Model of `Lock.register`, a JS `Set.add` — appends unless a filter with the same
identity is already present (JS sets iterate in insertion order). -/
def register (fs : List BFilter) (f : BFilter) : List BFilter :=
  if fs.any (fun g => g.fid == f.fid) then fs else fs ++ [f]

/-- Model of `Lock.unregister`, a JS `Set.delete` — removes the filter with this
identity if present, no-op otherwise. -/
def unregister (fs : List BFilter) (f : BFilter) : List BFilter :=
  fs.filter (fun g => g.fid != f.fid)

/-- One step of the loop body of `Lock._listener`: evaluate the filters in
order, recording the ids of the filters evaluated, and report whether one
matched.  Stops at the first match. -/
def evalFilters : List BFilter → Element → List Nat × Bool
  | [], _ => ([], false)
  | f :: fs, e =>
    if f.pred e then ([f.fid], true)
    else
      let r := evalFilters fs e
      (f.fid :: r.1, r.2)

/-- Apply the three suppression operations to an event. -/
def suppress (evt : Event) : Event :=
  { evt with stoppedImmediate := true, stopped := true, defaultPrevented := true }

/-- Model of `Lock._listener`: if the event's target is an element, evaluate the
registered filters in order; on the first match suppress the event and
stop; otherwise leave the event untouched.  Returns the resulting event
together with the ids of the filters that were evaluated. -/
def listener (fs : List BFilter) (evt : Event) : Event × List Nat :=
  match evt.target with
  | Node.element e =>
    let r := evalFilters fs e
    (if r.2 then suppress evt else evt, r.1)
  | Node.other _ => (evt, [])

/-- The `scope` option of the handle variant. -/
inductive Scope where
  | inside
  | outside
  | self
deriving DecidableEq, Repr

/-- The `Options` record of the handle variant (`timeout` is a JS number;
the code only compares it with `0`, so `Int` is faithful). -/
structure Options where
  scope : Option Scope
  timeout : Option Int
deriving Repr

/-- Resolution of the scope option: `options?.scope ?? inside`. -/
def resolveScope (o : Option Options) : Scope :=
  (o.bind Options.scope).getD Scope.inside

/-- Resolution of the timeout option: `options?.timeout ?? 0`. -/
def resolveTimeout (o : Option Options) : Int :=
  (o.bind Options.timeout).getD 0

/-- The filter closure built by `Blokr.lock` in the handle variant:
```
(eventTarget) => {
  if (this._target) {
    if (scope === Scope.self) return this._target === eventTarget;
    const contains = this._target.contains(eventTarget);
    return scope === Scope.outside ? !contains : contains;
  }
  return true;
}
``` -/
def buildFilterPred (target : Option Element) (scope : Scope) (eventTarget : Element) : Bool :=
  match target with
  | some t =>
    if scope = Scope.self then t == eventTarget
    else
      let contains := Element.containsE t eventTarget
      if scope = Scope.outside then !contains else contains
  | none => true

/-- Descendant-or-self, the specification's reading of DOM containment:
`e` lies in the subtree of `t` iff `t`'s path is a prefix of `e`'s. -/
def InSubtree (t e : Element) : Prop := ∃ p, e = t ++ p

theorem containsE_iff_inSubtree (t e : Element) :
    Element.containsE t e = true ↔ InSubtree t e := by
  induction t generalizing e with
  | nil =>
    simp [Element.containsE, InSubtree]
  | cons a as ih =>
    cases e with
    | nil =>
      simp [Element.containsE, InSubtree]
    | cons b bs =>
      simp only [Element.containsE, Bool.and_eq_true, beq_iff_eq, ih, InSubtree,
        List.cons_append, List.cons.injEq]
      constructor
      · rintro ⟨rfl, p, rfl⟩
        exact ⟨p, rfl, rfl⟩
      · rintro ⟨p, rfl, rfl⟩
        exact ⟨rfl, p, rfl⟩

theorem containsE_self (t : Element) : Element.containsE t t = true := by
  exact (containsE_iff_inSubtree t t).mpr ⟨[], by simp⟩

/-- JS truthiness of `this._timerId : number | undefined`: truthy iff
defined and nonzero (browser timer ids are positive integers). -/
def truthy : Option Nat → Bool
  | none => false
  | some n => n != 0

/-- The fields of a handle-variant `Blokr` instance: the optional bound
target, the pending timer id, and the currently registered filter. -/
structure HandleState where
  target : Option Element
  timerId : Option Nat
  filter : Option BFilter

/-- A pending one-shot host timer: its id and the absolute time at which
it is due to fire. -/
structure Timer where
  tid : Nat
  due : Int

/-- A handle-variant `Blokr` together with its environment: the
Interceptor's filter registry, the host timer queue and clock, fresh-id
counters for closures and timers, and an instrumentation counter of how
many times `lock.unregister` has been called. -/
structure Sys where
  registry : List BFilter
  handle : HandleState
  timers : List Timer
  now : Int
  nextTimerId : Nat
  nextFilterId : Nat
  unregisterCalls : Nat

/-- Model of `Blokr.isLocked` (handle variant): `!!this._filter`. -/
def Sys.isLocked (s : Sys) : Bool := s.handle.filter.isSome

/-- Model of `Blokr.lock(options)` (handle variant): return `false` if already
locked; otherwise build the scope filter, register it, schedule a
one-shot `unlock` timer when `timeout > 0`, and return `true`. -/
def Sys.lock (s : Sys) (o : Option Options) : Sys × Bool :=
  if s.isLocked then (s, false)
  else
    let scope := resolveScope o
    let timeout := resolveTimeout o
    let f : BFilter := ⟨s.nextFilterId, buildFilterPred s.handle.target scope⟩
    let s1 : Sys := { s with
      nextFilterId := s.nextFilterId + 1
      handle := { s.handle with filter := some f }
      registry := register s.registry f }
    if 0 < timeout then
      ({ s1 with
        nextTimerId := s1.nextTimerId + 1
        timers := s1.timers ++ [⟨s1.nextTimerId, s1.now + timeout⟩]
        handle := { s1.handle with timerId := some s1.nextTimerId } }, true)
    else (s1, true)

/-- Model of `Blokr.unlock()` (handle variant): clear the timer if one is pending
(`clearTimeout` removes it from the host queue), unregister the filter if
one is registered, then drop the filter reference. -/
def Sys.unlock (s : Sys) : Sys :=
  let s1 : Sys :=
    if truthy s.handle.timerId then
      { s with
        timers := s.timers.filter (fun tm => some tm.tid != s.handle.timerId)
        handle := { s.handle with timerId := none } }
    else s
  let s2 : Sys :=
    match s1.handle.filter with
    | some f => { s1 with
        registry := unregister s1.registry f
        unregisterCalls := s1.unregisterCalls + 1 }
    | none => s1
  { s2 with handle := { s2.handle with filter := none } }

/-- The host fires timer `tid`: it is removed from the pending queue and
its callback `() => this.unlock()` runs. -/
def Sys.fireTimer (s : Sys) (tid : Nat) : Sys :=
  Sys.unlock { s with timers := s.timers.filter (fun tm => tm.tid != tid) }

/-- Run every timer due by time `t` (fuel-bounded: callbacks never add
timers), then set the clock to `t`. -/
def advanceGo (t : Int) : Nat → Sys → Sys
  | 0, s => { s with now := t }
  | fuel + 1, s =>
    match s.timers.find? (fun tm => decide (tm.due ≤ t)) with
    | some tm => advanceGo t fuel (s.fireTimer tm.tid)
    | none => { s with now := t }

/-- Advance the host clock to time `t`, firing due timers. -/
def Sys.advanceTo (s : Sys) (t : Int) : Sys :=
  advanceGo t s.timers.length s

/-- The module-level `blokrs` `WeakMap` of the factory, keyed by the
target element or (for `none`) the `globalThis` sentinel, together with a
fresh-id counter modelling allocation of new `Blokr` objects.  Handle
object identity is modelled by the numeric id. -/
structure Cache where
  entries : List (Option Element × Nat)
  nextHandle : Nat

/-- Cache lookup, `blokrs.get(target ?? globalThis)`. -/
def cacheFind (c : Cache) (k : Option Element) : Option Nat :=
  (c.entries.find? (fun p => p.1 == k)).map Prod.snd

/-- The `blokr` factory: return the cached handle for the key, or create
a fresh `Blokr`, cache it, and return it. -/
def acquire (c : Cache) (target : Option Element) : Cache × Nat :=
  match cacheFind c target with
  | some h => (c, h)
  | none =>
    ({ entries := c.entries ++ [(target, c.nextHandle)]
       nextHandle := c.nextHandle + 1 }, c.nextHandle)

/-- State of the counting singleton `Blokr` (the variant with `abort`)
combined with the boolean `Lock` singleton's `_locked` flag.  `timerId`
is a JS number initialised to `0`, `0` meaning "no pending timer". -/
structure CSys where
  timeout : Int
  timerId : Nat
  counter : Nat
  locked : Bool
  nextTimerId : Nat
deriving DecidableEq, Repr

/-- The constructor state: default timeout 10000 ms, no timer, counter 0,
`Lock` not engaged; browser timer ids start at a positive value. -/
def CSys.init : CSys :=
  { timeout := 10000, timerId := 0, counter := 0, locked := false, nextTimerId := 1 }

/-- Model of `Blokr.lock()` (counting variant): `lock.on()` (sets `_locked`),
increment the counter, clear any pending timer, and schedule a fresh
auto-expiry timer when `_timeout` is nonzero. -/
def CSys.lock (s : CSys) : CSys :=
  let s1 : CSys := { s with locked := true, counter := s.counter + 1 }
  let s2 : CSys := if s1.timerId != 0 then { s1 with timerId := 0 } else s1
  if s2.timeout != 0 then
    { s2 with timerId := s2.nextTimerId, nextTimerId := s2.nextTimerId + 1 }
  else s2

/-- Model of `Blokr.isLocked()` (counting variant): `this._counter > 0`. -/
def CSys.isLocked (s : CSys) : Bool := decide (0 < s.counter)

/-- Model of `Blokr.setTimeout(timeout)` (counting variant): rejected while
locked; otherwise stores the timeout, clamping negatives to `0`. -/
def CSys.setTimeoutOp (s : CSys) (t : Int) : CSys × Bool :=
  if !s.isLocked then ({ s with timeout := if t < 0 then 0 else t }, true)
  else (s, false)

/-- Model of `Blokr.unlock(abort)` (counting variant): when the counter is
positive, decrement it (resetting to zero when `abort`); when it reaches
zero, clear any pending timer and `lock.off()`. -/
def CSys.unlock (s : CSys) (abort : Bool) : CSys :=
  if 0 < s.counter then
    let s1 : CSys := { s with counter := s.counter - 1 }
    let s2 : CSys := if abort then { s1 with counter := 0 } else s1
    if s2.counter = 0 then
      let s3 : CSys := if s2.timerId != 0 then { s2 with timerId := 0 } else s2
      { s3 with locked := false }
    else s2
  else s

/-- The auto-expiry timer callback of the counting variant:
`this._timerId = 0; this._counter = 0; lock.off();`. -/
def CSys.fireTimerCb (s : CSys) : CSys :=
  { s with timerId := 0, counter := 0, locked := false }

theorem evalFilters_found (e : Element) (fs : List BFilter) (f : BFilter)
    (h : fs.find? (fun g => g.pred e) = some f) :
    evalFilters fs e =
      ((fs.takeWhile (fun g => !g.pred e)).map BFilter.fid ++ [f.fid], true) := by
  induction fs with
  | nil => simp at h
  | cons g gs ih =>
    cases hg : g.pred e with
    | true =>
      rw [List.find?_cons] at h
      simp only [hg] at h
      cases h
      simp [evalFilters, List.takeWhile_cons, hg]
    | false =>
      rw [List.find?_cons] at h
      simp only [hg] at h
      simp [evalFilters, List.takeWhile_cons, hg, ih h]

theorem evalFilters_not_found (e : Element) (fs : List BFilter)
    (h : ∀ f ∈ fs, f.pred e = false) :
    evalFilters fs e = (fs.map BFilter.fid, false) := by
  induction fs with
  | nil => simp [evalFilters]
  | cons g gs ih =>
    have hg : g.pred e = false := h g (List.mem_cons_self g gs)
    simp [evalFilters, hg, ih (fun f hf => h f (List.mem_cons_of_mem g hf))]

/-- C1: when an intercepted event targets an element, the listener
evaluates the registered filters in order; at the first filter matching
the target element it applies `stopImmediatePropagation`,
`stopPropagation` and `preventDefault` and evaluates no further filter
(the evaluated ids are exactly the non-matching prefix plus the first
match); when no filter matches, or the target is not an element, the
event is returned untouched. -/
theorem c1_listener_first_match (fs : List BFilter) (evt : Event) :
    (∀ e, evt.target = Node.element e →
      ((∃ f ∈ fs, f.pred e = true) →
        ∃ f, fs.find? (fun g => g.pred e) = some f ∧ f.pred e = true ∧
          listener fs evt =
            (suppress evt,
              (fs.takeWhile (fun g => !g.pred e)).map BFilter.fid ++ [f.fid]))
      ∧ ((∀ f ∈ fs, f.pred e = false) →
        listener fs evt = (evt, fs.map BFilter.fid)))
    ∧ ((∀ e, evt.target ≠ Node.element e) → listener fs evt = (evt, [])) := by
  constructor
  · intro e he
    constructor
    · intro hex
      have hsome : (fs.find? (fun g => g.pred e)).isSome := by
        rw [List.find?_isSome]
        exact hex
      obtain ⟨f, hf⟩ := Option.isSome_iff_exists.mp hsome
      refine ⟨f, hf, by simpa using List.find?_some hf, ?_⟩
      simp [listener, he, evalFilters_found e fs f hf]
    · intro hnone
      simp [listener, he, evalFilters_not_found e fs hnone]
  · intro hne
    cases ht : evt.target with
    | element e => exact absurd ht (hne e)
    | other n => simp [listener, ht]

/-- Concrete data for the `c1` witness: two always-true filters and a
pointer-down event on the element at path `[0]`. -/
def c1fs : List BFilter := [⟨1, fun _ => true⟩, ⟨2, fun _ => true⟩]

def c1evt : Event :=
  { target := Node.element [0], stoppedImmediate := false, stopped := false,
    defaultPrevented := false }

theorem c1_listener_first_match_witness :
    listener c1fs c1evt =
      ({ target := Node.element [0], stoppedImmediate := true, stopped := true,
         defaultPrevented := true }, [1]) := by
  obtain ⟨f, hf, _, hl⟩ :=
    ((c1_listener_first_match c1fs c1evt).1 [0] rfl).1
      ⟨⟨1, fun _ => true⟩, List.mem_cons_self _ _, rfl⟩
  have hfid : f.fid = 1 := by
    have h2 : c1fs.find? (fun g => g.pred [0]) = some ⟨1, fun _ => true⟩ := rfl
    rw [h2] at hf
    cases hf
    rfl
  rw [hl, hfid]
  rfl

/-- C2: for a handle bound to target `T`, the filter built by `lock`
returns, on event-target element `E`: with scope `self`, true iff `E` is
exactly `T`; with scope `inside` (the default when no option is given),
true iff `E` lies in `T`'s subtree (`T` itself included); with scope
`outside`, true iff `E` does not lie in `T`'s subtree. -/
theorem c2_scope_predicate_semantics (t e : Element) :
    (buildFilterPred (some t) Scope.self e = true ↔ e = t)
    ∧ (buildFilterPred (some t) Scope.inside e = true ↔ InSubtree t e)
    ∧ (buildFilterPred (some t) Scope.outside e = true ↔ ¬ InSubtree t e)
    ∧ resolveScope none = Scope.inside := by
  have hself : buildFilterPred (some t) Scope.self e = (t == e) := rfl
  have hin : buildFilterPred (some t) Scope.inside e = Element.containsE t e := rfl
  have hout : buildFilterPred (some t) Scope.outside e = !(Element.containsE t e) := rfl
  refine ⟨?_, ?_, ?_, rfl⟩
  · rw [hself, beq_iff_eq]
    exact eq_comm
  · rw [hin]
    exact containsE_iff_inSubtree t e
  · rw [hout, ← containsE_iff_inSubtree t e]
    cases hc : Element.containsE t e <;> simp [hc]

/-- C3: the filter built for the global handle (no bound target) returns
true on every event-target element, for every scope option. -/
theorem c3_global_predicate_always_true (sc : Scope) (e : Element) :
    buildFilterPred none sc e = true := rfl

/-- C4: calling `lock` on an already-locked handle returns `false` and
leaves the entire state (handle fields, filter registry, timer queue,
fresh-id counters) unchanged. -/
theorem c4_lock_not_reentrant (s : Sys) (o : Option Options)
    (h : s.isLocked = true) : s.lock o = (s, false) := by
  simp [Sys.lock, h]

/-- A concrete already-locked handle state for the `c4` witness. -/
def lockedSys : Sys :=
  { registry := [⟨1, fun _ => true⟩]
    handle := { target := none, timerId := none, filter := some ⟨1, fun _ => true⟩ }
    timers := [], now := 0, nextTimerId := 2, nextFilterId := 2, unregisterCalls := 0 }

theorem c4_lock_not_reentrant_witness :
    lockedSys.lock (some { scope := some Scope.self, timeout := some 5 }) =
      (lockedSys, false) :=
  c4_lock_not_reentrant lockedSys (some { scope := some Scope.self, timeout := some 5 }) rfl

theorem unlock_filter_none (s : Sys) : (s.unlock).handle.filter = none := rfl

theorem unlock_of_inactive (s : Sys) (hf : s.handle.filter = none)
    (ht : truthy s.handle.timerId = false) : s.unlock = s := by
  obtain ⟨reg, ⟨tgt, tid, fil⟩, tms, now, nti, nfi, uc⟩ := s
  simp only at hf ht
  subst hf
  simp [Sys.unlock, ht]

theorem unlock_timer_not_truthy (s : Sys) :
    truthy (s.unlock).handle.timerId = false := by
  cases ht : truthy s.handle.timerId with
  | true =>
    simp only [Sys.unlock, ht, if_pos]
    cases s.handle.filter <;> simp [truthy]
  | false =>
    simp only [Sys.unlock, ht, Bool.false_eq_true, if_neg, not_false_iff]
    cases s.handle.filter <;> simpa using ht

theorem unlock_unlock (s : Sys) : s.unlock.unlock = s.unlock :=
  unlock_of_inactive _ (unlock_filter_none s) (unlock_timer_not_truthy s)

theorem unlock_timers (x : Sys) :
    (x.unlock).timers = (if truthy x.handle.timerId then
      x.timers.filter (fun tm => some tm.tid != x.handle.timerId)
    else x.timers) := by
  cases ht : truthy x.handle.timerId with
  | true =>
    simp only [Sys.unlock, ht, if_pos]
    cases x.handle.filter <;> simp
  | false =>
    simp only [Sys.unlock, ht, Bool.false_eq_true, if_neg, not_false_iff]
    cases x.handle.filter <;> simp

theorem unlock_registry (x : Sys) :
    (x.unlock).registry = (match x.handle.filter with
      | some f => unregister x.registry f
      | none => x.registry) := by
  cases ht : truthy x.handle.timerId with
  | true =>
    simp only [Sys.unlock, ht, if_pos]
    cases x.handle.filter <;> simp
  | false =>
    simp only [Sys.unlock, ht, Bool.false_eq_true, if_neg, not_false_iff]
    cases x.handle.filter <;> simp

/-- C5: `unlock` always leaves the handle unlocked with no registered
filter and no live timer reference; it removes the pending timer from the
host queue exactly when one was pending; it calls the Interceptor's
`unregister` on the handle's predicate exactly when one is registered,
leaving the registry untouched otherwise; it is idempotent (the second
call changes nothing, in the handle or in the Interceptor registry); and
on a fully inactive handle it is a complete no-op. -/
theorem c5_unlock_idempotent (s : Sys) :
    (s.unlock).isLocked = false
    ∧ (s.unlock).handle.filter = none
    ∧ truthy (s.unlock).handle.timerId = false
    ∧ (s.unlock).timers = (if truthy s.handle.timerId then
        s.timers.filter (fun tm => some tm.tid != s.handle.timerId)
      else s.timers)
    ∧ (s.unlock).registry = (match s.handle.filter with
        | some f => unregister s.registry f
        | none => s.registry)
    ∧ s.unlock.unlock = s.unlock
    ∧ (s.handle.filter = none → s.handle.timerId = none → s.unlock = s) := by
  refine ⟨?_, unlock_filter_none s, unlock_timer_not_truthy s, unlock_timers s,
    unlock_registry s, unlock_unlock s,
    fun hf ht => unlock_of_inactive s hf (by rw [ht]; rfl)⟩
  simp [Sys.isLocked, unlock_filter_none s]

/-- A fully inactive handle state for the `c5` witness. -/
def idleSys : Sys :=
  { registry := [], handle := { target := some [2], timerId := none, filter := none }
    timers := [], now := 0, nextTimerId := 1, nextFilterId := 0, unregisterCalls := 0 }

/-- A locked handle state — its predicate sits in the Interceptor
registry — for the `c5` witness. -/
def c5lockedSys : Sys :=
  { registry := [⟨1, fun _ => true⟩]
    handle := { target := none, timerId := none, filter := some ⟨1, fun _ => true⟩ }
    timers := [], now := 0, nextTimerId := 2, nextFilterId := 2, unregisterCalls := 0 }

theorem c5_unlock_idempotent_witness :
    idleSys.unlock.isLocked = false ∧ idleSys.unlock.unlock = idleSys.unlock
      ∧ idleSys.unlock = idleSys
      ∧ c5lockedSys.unlock.registry = []
      ∧ c5lockedSys.unlock.isLocked = false := by
  have h1 := c5_unlock_idempotent idleSys
  have h2 := c5_unlock_idempotent c5lockedSys
  refine ⟨h1.1, h1.2.2.2.2.2.1, h1.2.2.2.2.2.2 rfl rfl, ?_, h2.1⟩
  rw [h2.2.2.2.2.1]
  rfl

/-- Invariant of the factory cache: every cached handle id is below the
fresh-id counter, and distinct entries hold distinct handle ids (handle
ids model JS object identity of the `Blokr` instances). -/
def Cache.WF (c : Cache) : Prop :=
  (∀ p ∈ c.entries, p.2 < c.nextHandle)
  ∧ c.entries.Pairwise (fun a b => a.2 ≠ b.2)

theorem cacheFind_lt (c : Cache) (k : Option Element) (h : Nat)
    (hwf : c.WF) (hk : cacheFind c k = some h) : h < c.nextHandle := by
  obtain ⟨p, hp, hsnd⟩ := Option.map_eq_some'.mp hk
  subst hsnd
  exact hwf.1 p (List.mem_of_find?_eq_some hp)

theorem cacheFind_key (c : Cache) (k : Option Element) (h : Nat)
    (hk : cacheFind c k = some h) :
    ∃ p ∈ c.entries, p.1 = k ∧ p.2 = h := by
  obtain ⟨p, hp, hsnd⟩ := Option.map_eq_some'.mp hk
  refine ⟨p, List.mem_of_find?_eq_some hp, ?_, hsnd⟩
  simpa using List.find?_some hp

theorem cacheFind_inj (c : Cache) (k1 k2 : Option Element) (h1 h2 : Nat)
    (hwf : c.WF) (hne : k1 ≠ k2)
    (hk1 : cacheFind c k1 = some h1) (hk2 : cacheFind c k2 = some h2) :
    h1 ≠ h2 := by
  obtain ⟨p1, hp1, hpk1, hps1⟩ := cacheFind_key c k1 h1 hk1
  obtain ⟨p2, hp2, hpk2, hps2⟩ := cacheFind_key c k2 h2 hk2
  have hpne : p1 ≠ p2 := by
    intro he
    exact hne (by rw [← hpk1, he, hpk2])
  have hval : p1.2 ≠ p2.2 :=
    List.Pairwise.forall (fun _ _ hab => Ne.symm hab) hwf.2 hp1 hp2 hpne
  rw [← hps1, ← hps2]
  exact hval

theorem acquire_cached (c : Cache) (k : Option Element) (h : Nat)
    (hk : cacheFind c k = some h) : acquire c k = (c, h) := by
  simp [acquire, hk]

theorem acquire_fresh (c : Cache) (k : Option Element)
    (hk : cacheFind c k = none) :
    acquire c k = ({ entries := c.entries ++ [(k, c.nextHandle)],
                     nextHandle := c.nextHandle + 1 }, c.nextHandle) := by
  simp [acquire, hk]

theorem cacheFind_append_self (c : Cache) (k : Option Element)
    (hk : cacheFind c k = none) :
    cacheFind { entries := c.entries ++ [(k, c.nextHandle)],
                nextHandle := c.nextHandle + 1 } k = some c.nextHandle := by
  have hf : c.entries.find? (fun p => p.1 == k) = none := by
    simpa [cacheFind] using hk
  simp [cacheFind, List.find?_append, hf, List.find?]

theorem cacheFind_append_other (c : Cache) (k k2 : Option Element) (v m : Nat)
    (hne : k2 ≠ k) :
    cacheFind { entries := c.entries ++ [(k, v)], nextHandle := m } k2
      = cacheFind c k2 := by
  have hb : (((k, v) : Option Element × Nat).1 == k2) = false := by
    simpa using Ne.symm hne
  simp only [cacheFind, List.find?_append, List.find?, hb]
  cases c.entries.find? (fun p => p.1 == k2) <;> simp

theorem acquire_WF (c : Cache) (k : Option Element) (hwf : c.WF) :
    (acquire c k).1.WF := by
  cases hk : cacheFind c k with
  | some h =>
    rw [acquire_cached c k h hk]
    exact hwf
  | none =>
    rw [acquire_fresh c k hk]
    constructor
    · intro p hp
      simp only [List.mem_append, List.mem_singleton] at hp
      rcases hp with hp | rfl
      · exact Nat.lt_succ_of_lt (hwf.1 p hp)
      · exact Nat.lt_succ_self _
    · rw [List.pairwise_append]
      refine ⟨hwf.2, by simp, ?_⟩
      intro a ha b hb
      simp only [List.mem_singleton] at hb
      subst hb
      exact Nat.ne_of_lt (hwf.1 a ha)

/-- C6: the factory keeps at most one handle per distinct key (a target
element, or the `globalThis` sentinel `none` for the global handle):
acquiring the same key again returns the identical handle and leaves the
cache unchanged; acquiring two distinct keys in sequence yields distinct
handles; and the cache invariant is preserved. -/
theorem c6_cache_reference_stability (c : Cache) (k k1 k2 : Option Element)
    (hwf : c.WF) (hne : k1 ≠ k2) :
    acquire (acquire c k).1 k = acquire c k
    ∧ (acquire (acquire c k1).1 k2).2 ≠ (acquire c k1).2
    ∧ (acquire c k).1.WF := by
  refine ⟨?_, ?_, acquire_WF c k hwf⟩
  · cases hk : cacheFind c k with
    | some h =>
      rw [acquire_cached c k h hk]
      exact acquire_cached c k h hk
    | none =>
      rw [acquire_fresh c k hk]
      exact acquire_cached _ k c.nextHandle (cacheFind_append_self c k hk)
  · cases hk1 : cacheFind c k1 with
    | some h1 =>
      rw [acquire_cached c k1 h1 hk1]
      cases hk2 : cacheFind c k2 with
      | some h2 =>
        rw [acquire_cached c k2 h2 hk2]
        exact Ne.symm (cacheFind_inj c k1 k2 h1 h2 hwf hne hk1 hk2)
      | none =>
        rw [acquire_fresh c k2 hk2]
        exact Ne.symm (Nat.ne_of_lt (cacheFind_lt c k1 h1 hwf hk1))
    | none =>
      rw [acquire_fresh c k1 hk1]
      have hother := cacheFind_append_other c k1 k2 c.nextHandle (c.nextHandle + 1)
        (Ne.symm hne)
      cases hk2 : cacheFind c k2 with
      | some h2 =>
        rw [acquire_cached _ k2 h2 (by rw [hother, hk2])]
        exact Nat.ne_of_lt (cacheFind_lt c k2 h2 hwf hk2)
      | none =>
        rw [acquire_fresh _ k2 (by rw [hother, hk2])]
        exact Nat.succ_ne_self c.nextHandle

/-- The empty module-level cache, for the `c6` witness. -/
def emptyCache : Cache := { entries := [], nextHandle := 0 }

theorem c6_cache_reference_stability_witness :
    acquire (acquire emptyCache (some [0])).1 (some [0]) = acquire emptyCache (some [0])
    ∧ (acquire (acquire emptyCache (some [0])).1 none).2
        ≠ (acquire emptyCache (some [0])).2 := by
  have h := c6_cache_reference_stability emptyCache (some [0]) (some [0]) none
    ⟨by simp [emptyCache], by exact List.Pairwise.nil⟩ (by simp)
  exact ⟨h.1, h.2.1⟩

theorem lock_pos_state (s : Sys) (o : Option Options)
    (hl : s.isLocked = false) (hθ : 0 < resolveTimeout o) :
    (s.lock o).1.timers = s.timers ++ [⟨s.nextTimerId, s.now + resolveTimeout o⟩]
    ∧ (s.lock o).1.handle.timerId = some s.nextTimerId
    ∧ (s.lock o).1.handle.filter
        = some ⟨s.nextFilterId, buildFilterPred s.handle.target (resolveScope o)⟩
    ∧ (s.lock o).2 = true := by
  simp [Sys.lock, hl, hθ]

theorem lock_nonpos_state (s : Sys) (o : Option Options)
    (hl : s.isLocked = false) (hθ : ¬ 0 < resolveTimeout o) :
    (s.lock o).1.timers = s.timers
    ∧ (s.lock o).1.handle.timerId = s.handle.timerId
    ∧ (s.lock o).2 = true := by
  simp [Sys.lock, hl, hθ]

theorem advanceTo_no_timers (s : Sys) (t : Int) (h : s.timers = []) :
    s.advanceTo t = { s with now := t } := by
  simp [Sys.advanceTo, h, advanceGo]

/-- C7: a lock on an unlocked handle always returns `true`; it schedules
the one-shot auto-expiry timer (recording its id) precisely when the
effective timeout is strictly positive — for zero or negative timeouts
(and for the default `0` when the option is omitted) no timer is
scheduled; firing the scheduled timer runs `unlock`; and the counting
singleton's `setTimeout` stores `0` when handed a negative value. -/
theorem c7_lock_timer_iff_positive (s : Sys) (o : Option Options)
    (h : s.isLocked = false) :
    (s.lock o).2 = true
    ∧ (s.lock o).1.timers = (if 0 < resolveTimeout o then
        s.timers ++ [⟨s.nextTimerId, s.now + resolveTimeout o⟩]
      else s.timers)
    ∧ (s.lock o).1.handle.timerId = (if 0 < resolveTimeout o then
        some s.nextTimerId
      else s.handle.timerId)
    ∧ resolveTimeout none = 0
    ∧ (∀ (x : Sys) (tid : Nat), (x.fireTimer tid).isLocked = false)
    ∧ (∀ (cs : CSys) (u : Int), cs.isLocked = false → u < 0 →
        (cs.setTimeoutOp u).1.timeout = 0 ∧ (cs.setTimeoutOp u).2 = true) := by
  refine ⟨?_, ?_, ?_, rfl, ?_, ?_⟩
  · by_cases hθ : 0 < resolveTimeout o
    · exact (lock_pos_state s o h hθ).2.2.2
    · exact (lock_nonpos_state s o h hθ).2.2
  · by_cases hθ : 0 < resolveTimeout o
    · rw [if_pos hθ]
      exact (lock_pos_state s o h hθ).1
    · rw [if_neg hθ]
      exact (lock_nonpos_state s o h hθ).1
  · by_cases hθ : 0 < resolveTimeout o
    · rw [if_pos hθ]
      exact (lock_pos_state s o h hθ).2.1
    · rw [if_neg hθ]
      exact (lock_nonpos_state s o h hθ).2.1
  · intro x tid
    simp [Sys.fireTimer, Sys.isLocked, unlock_filter_none]
  · intro cs u hcs hu
    simp [CSys.setTimeoutOp, hcs, hu]

theorem c7_lock_timer_iff_positive_witness :
    (idleSys.lock (some { scope := none, timeout := some 7 })).2 = true
    ∧ (idleSys.lock (some { scope := none, timeout := some 7 })).1.timers = [⟨1, 7⟩]
    ∧ (idleSys.lock (some { scope := none, timeout := some 7 })).1.handle.timerId = some 1
    ∧ (CSys.init.setTimeoutOp (-5)).1.timeout = 0
    ∧ (CSys.init.setTimeoutOp (-5)).2 = true := by
  have h := c7_lock_timer_iff_positive idleSys (some { scope := none, timeout := some 7 }) rfl
  have hclamp := h.2.2.2.2.2 CSys.init (-5) rfl (by decide)
  refine ⟨h.1, ?_, ?_, hclamp.1, hclamp.2⟩
  · have := h.2.1
    rw [if_pos (by decide : (0:Int) < resolveTimeout (some { scope := none, timeout := some 7 }))] at this
    exact this
  · have := h.2.2.1
    rw [if_pos (by decide : (0:Int) < resolveTimeout (some { scope := none, timeout := some 7 }))] at this
    exact this

/-- C8: after `lock` with a positive timeout followed by `unlock` before
expiry, the pending timer has been removed from the host queue, and
letting any amount of time pass (in particular past the original expiry)
fires nothing: the handle stays unlocked and no further
`lock.unregister` side effect on the Interceptor occurs. -/
theorem c8_unlock_cancels_timer (s : Sys) (o : Option Options) (t : Int)
    (hl : s.isLocked = false) (ht : s.timers = [])
    (hn : s.nextTimerId ≠ 0) (hθ : 0 < resolveTimeout o) :
    (s.lock o).1.unlock.timers = []
    ∧ (((s.lock o).1.unlock).advanceTo t).isLocked = false
    ∧ (((s.lock o).1.unlock).advanceTo t).unregisterCalls
        = (s.lock o).1.unlock.unregisterCalls
    ∧ (((s.lock o).1.unlock).advanceTo t).registry = (s.lock o).1.unlock.registry := by
  have hx := lock_pos_state s o hl hθ
  have h2 : (s.lock o).1.unlock.timers = [] := by
    rw [unlock_timers, hx.2.1, hx.1, ht]
    simp [truthy, hn]
  have hadv := advanceTo_no_timers _ t h2
  refine ⟨h2, ?_, ?_, ?_⟩
  · rw [hadv]
    simp [Sys.isLocked, unlock_filter_none]
  · rw [hadv]
  · rw [hadv]

theorem c8_unlock_cancels_timer_witness :
    (idleSys.lock (some { scope := none, timeout := some 7 })).1.unlock.timers = []
    ∧ (((idleSys.lock (some { scope := none, timeout := some 7 })).1.unlock).advanceTo 100).isLocked
        = false := by
  have h := c8_unlock_cancels_timer idleSys (some { scope := none, timeout := some 7 }) 100
    rfl rfl (by decide) (by decide)
  exact ⟨h.1, h.2.1⟩

/-- C9: counting-variant semantics: `lock()` always succeeds — it
increments the counter and engages the suppression; plain `unlock()` is a
no-op at counter zero, decrements a positive counter, and disengages the
suppression (clearing the timer) exactly when the counter reaches zero;
`unlock(abort := true)` on a positive counter resets it straight to zero
and disengages the suppression in that same call; `isLocked()` is true
iff the counter is positive. -/
theorem c9_counting_variant :
    (∀ s : CSys, (s.lock).counter = s.counter + 1 ∧ (s.lock).locked = true)
    ∧ (∀ s : CSys, s.counter = 0 → s.unlock false = s ∧ s.unlock true = s)
    ∧ (∀ s : CSys, 0 < s.counter → (s.unlock false).counter = s.counter - 1)
    ∧ (∀ s : CSys, s.counter = 1 →
        (s.unlock false).locked = false ∧ (s.unlock false).timerId = 0)
    ∧ (∀ s : CSys, 2 ≤ s.counter →
        (s.unlock false).locked = s.locked ∧ (s.unlock false).timerId = s.timerId)
    ∧ (∀ s : CSys, 0 < s.counter →
        (s.unlock true).counter = 0 ∧ (s.unlock true).locked = false)
    ∧ (∀ s : CSys, s.isLocked = decide (0 < s.counter)) := by
  refine ⟨?_, ?_, ?_, ?_, ?_, ?_, fun s => rfl⟩
  · intro s
    by_cases htid : s.timerId = 0 <;> by_cases hto : s.timeout = 0 <;>
      simp [CSys.lock, htid, hto]
  · intro s h
    simp [CSys.unlock, h]
  · intro s h
    by_cases htid : s.timerId = 0 <;>
      simp [CSys.unlock, h, htid, apply_ite CSys.counter]
  · intro s h
    by_cases htid : s.timerId = 0 <;>
      simp [CSys.unlock, h, htid, apply_ite CSys.locked, apply_ite CSys.timerId]
  · intro s h2
    have hpos : 0 < s.counter := by omega
    have hne : ¬ (s.counter - 1 = 0) := by omega
    simp [CSys.unlock, hpos, hne]
  · intro s h
    by_cases htid : s.timerId = 0 <;>
      simp [CSys.unlock, h, htid, apply_ite CSys.counter, apply_ite CSys.locked]

theorem c9_counting_variant_witness :
    (CSys.init.lock).counter = 1
    ∧ (CSys.init.lock).isLocked = true
    ∧ (CSys.init.lock.lock).counter = 2
    ∧ (CSys.init.lock.lock.unlock false).counter = 1
    ∧ (CSys.init.lock.lock.unlock true).counter = 0
    ∧ (CSys.init.lock.lock.unlock true).locked = false
    ∧ CSys.init.unlock false = CSys.init := by
  have h := c9_counting_variant
  refine ⟨?_, ?_, ?_, ?_, ?_, ?_, ?_⟩
  · simpa using (h.1 CSys.init).1
  · rw [h.2.2.2.2.2.2 CSys.init.lock]
    decide
  · rw [(h.1 CSys.init.lock).1]
    decide
  · simpa using h.2.2.1 CSys.init.lock.lock (by decide)
  · exact (h.2.2.2.2.2.1 CSys.init.lock.lock (by decide)).1
  · exact (h.2.2.2.2.2.1 CSys.init.lock.lock (by decide)).2
  · exact (h.2.1 CSys.init rfl).1

/-- C10: the counting variant's auto-expiry callback resets the state in
one step — timer reference dropped, counter forced straight to zero no
matter how many nested `lock()` calls raised it, suppression disengaged —
so `isLocked()` is false immediately after expiry with no `unlock()`
calls. -/
theorem c10_expiry_releases_all (s : CSys) :
    s.fireTimerCb = { s with timerId := 0, counter := 0, locked := false }
    ∧ (s.fireTimerCb).isLocked = false
    ∧ ∀ (n : Nat), ((CSys.lock)^[n] s).fireTimerCb.isLocked = false := by
  exact ⟨rfl, rfl, fun n => rfl⟩

theorem c2_scope_predicate_semantics_witness :
    buildFilterPred (some [0]) Scope.inside [0, 1] = true
    ∧ buildFilterPred (some [0]) Scope.self [0, 1] = false
    ∧ buildFilterPred (some [0]) Scope.outside [1] = true := by
  have h := c2_scope_predicate_semantics [0] [0, 1]
  have h2 := c2_scope_predicate_semantics [0] [1]
  refine ⟨h.2.1.mpr ⟨[1], rfl⟩, ?_, ?_⟩
  · cases hb : buildFilterPred (some [0]) Scope.self [0, 1] with
    | false => rfl
    | true => exact absurd (h.1.mp hb) (by simp)
  · refine h2.2.2.1.mpr ?_
    rintro ⟨p, hp⟩
    simp at hp
